import Mathlib

/-!
Shallow embedding of `src/main.rs` (Mandelbrot set zoom, Piston application).

Modelling conventions:
* Machine floats (`f64` for the viewport, `f32` for `scalar`/`step_factor`
  and the colour arithmetic) are modelled as exact rationals `ℚ`.
* The `i16` iteration counters are modelled as `ℕ`: every count produced by
  the escape loop lies in `[0, 1200]`, far below the `i16` range, and the
  single `+=` into a zero-initialised buffer cannot overflow.
* The stack array `[[i16; DOMAIN]; RANGE]` is modelled as a total function
  `Fin RANGE → Fin DOMAIN → ℕ` (exactly the in-bounds cells).
* The `gl` field (OpenGL backend handle) carries no algorithmic state and is
  omitted from the model.
-/

/-! Constants from `src/main.rs` lines 41-69. -/

def GRAPH_SCALE : ℚ := 100.0

def ITERATIONS : ℕ := 1200

def MAGIC_RE : ℚ := 0.3602404434376143632361252444495453084826

def MAGIC_IM : ℚ := -0.641313061064803174860375015179302066579

def RE1 : ℚ := MAGIC_RE - 2.0

def RE2 : ℚ := MAGIC_RE + 2.0

def DRE : ℚ := RE2 - RE1

def IM1 : ℚ := MAGIC_IM - 1.0

def IM2 : ℚ := MAGIC_IM + 1.0

def DIM : ℚ := IM2 - IM1

def RAT : ℚ := DIM / DRE

/-- Rust `expr as i16` on an in-range `f64` value: truncation toward zero.
(The values cast in the source lie well inside the `i16` range, so the
saturating behaviour of `as` never triggers.) -/
def i16Trunc (q : ℚ) : ℤ := if 0 ≤ q then ⌊q⌋ else -⌊-q⌋

def RE_MIN : ℤ := i16Trunc (RE1 * GRAPH_SCALE)

def RE_MAX : ℤ := i16Trunc (RE2 * GRAPH_SCALE)

def DOMAIN : ℕ := (RE_MAX - RE_MIN).toNat

def IM_MIN : ℤ := i16Trunc (IM1 * GRAPH_SCALE)

def IM_MAX : ℤ := i16Trunc (IM2 * GRAPH_SCALE)

def RANGE : ℕ := (IM_MAX - IM_MIN).toNat

/-! Complex arithmetic of `num::complex::Complex<f64>` as used by the code. -/

def cMul (x y : ℚ × ℚ) : ℚ × ℚ := (x.1 * y.1 - x.2 * y.2, x.1 * y.2 + x.2 * y.1)

def cAdd (x y : ℚ × ℚ) : ℚ × ℚ := (x.1 + y.1, x.2 + y.2)

def norm_sqr (x : ℚ × ℚ) : ℚ := x.1 * x.1 + x.2 * x.2

/-- `let bound = cmp::new(2.0, 0.0)` (lines 186 and 296). -/
def bound : ℚ × ℚ := (2.0, 0.0)

/-- The `App` struct (lines 89-103), without the `gl` graphics handle. -/
structure App where
  vals : Fin RANGE → Fin DOMAIN → ℕ
  re_min : ℚ
  re_max : ℚ
  im_min : ℚ
  im_max : ℚ
  re_scale : ℚ
  im_scale : ℚ
  zoom : ℚ
  scalar : ℚ
  step_factor : ℚ
  paused : Bool

attribute [ext] App

/-- The escape-time while loop (lines 219-227 / 312-320):
`while !done && count < ITERATIONS { z = z*z + c; count += 1;
 if norm_sqr(z) >= norm_sqr(bound) { done = true } }`.
`fuel` stands for `ITERATIONS - count`, so the `count < ITERATIONS` test of
the source is the `fuel = 0` case. -/
def escapeGo (c : ℚ × ℚ) : ℕ → ℚ × ℚ → Bool → ℕ → ℕ
  | 0, _, _, count => count
  | fuel + 1, z, done, count =>
    if done then count
    else
      let z_next := cAdd (cMul z z) c
      if norm_sqr z_next ≥ norm_sqr bound then escapeGo c fuel z_next true (count + 1)
      else escapeGo c fuel z_next false (count + 1)

/-- One grid cell: `z = cmp::new(0.0, 0.0)`, `done = false`, `count = 0`,
then the escape loop. -/
def escapeCount (c : ℚ × ℚ) : ℕ := escapeGo c ITERATIONS (0.0, 0.0) false 0

/-- The pixel-to-plane mapping used identically by both update variants
(line 214 and line 308): the cell in row `row` (imaginary axis) and column
`col` (real axis) is evaluated at
`c = (col / re_scale + re_min, row / im_scale + im_min)`. -/
def cOf (s : App) (row : Fin RANGE) (col : Fin DOMAIN) : ℚ × ℚ :=
  ((col.val : ℚ) / s.re_scale + s.re_min, (row.val : ℚ) / s.im_scale + s.im_min)

/-- The body of the rayon closure for one row `im` (lines 201-234): for each
`a in 0..DOMAIN` the row buffer gets `b[a] += count`. -/
def parRow (s : App) (im : Fin RANGE) (b : Fin DOMAIN → ℕ) : Fin DOMAIN → ℕ :=
  (List.finRange DOMAIN).foldl
    (fun b a => Function.update b a (b a + escapeCount (cOf s im a))) b

/-- `values.par_iter_mut().enumerate().for_each(...)` on the freshly
zero-initialised buffer `values = [[0; DOMAIN]; RANGE]` (lines 190-234):
each row is transformed independently. -/
def parVals (s : App) : Fin RANGE → Fin DOMAIN → ℕ :=
  fun im => parRow s im (fun _ => 0)

/-- `App::update_parallel` (lines 181-276). -/
def updateParallel (s : App) : App :=
  if s.paused then s
  else
    let values := parVals s
    let re_zoom := s.zoom
    let im_zoom := re_zoom * RAT
    let re_scalar := (s.re_max - s.re_min) / (s.re_max - s.re_min - (2.0 * re_zoom))
    let im_scalar := (s.im_max - s.im_min) / (s.im_max - s.im_min - (2.0 * im_zoom))
    let sf1 := if s.scalar > 0.000005 then (0.000001 : ℚ) else s.step_factor
    let sf2 := if s.scalar > 0.00005 then (0.00001 : ℚ) else sf1
    let sf3 := if s.scalar > 0.0005 then (0.0001 : ℚ) else sf2
    let sf4 := if s.scalar > 0.01 then (0.001 : ℚ) else sf3
    let sf5 := if s.scalar > 0.23 then (0.01 : ℚ) else sf4
    { vals := values
      re_min := s.re_min + re_zoom
      re_max := s.re_max - re_zoom
      im_min := s.im_min + im_zoom
      im_max := s.im_max - im_zoom
      re_scale := s.re_scale * re_scalar
      im_scale := s.im_scale * im_scalar
      zoom := s.zoom * 0.95
      scalar := s.scalar - sf5
      step_factor := sf5
      paused := s.paused }

/-- Inner loop `for b in 0..RANGE` of the sequential variant for a fixed
column `a` (lines 307-325): `self.vals[b][a] = count`. -/
def seqInner (s : App) (a : Fin DOMAIN) (v : Fin RANGE → Fin DOMAIN → ℕ) :
    Fin RANGE → Fin DOMAIN → ℕ :=
  (List.finRange RANGE).foldl
    (fun v b => Function.update v b (Function.update (v b) a (escapeCount (cOf s b a)))) v

/-- Outer loop `for a in 0..DOMAIN` of the sequential variant (lines
306-326), writing in place into `self.vals`. -/
def seqVals (s : App) : Fin RANGE → Fin DOMAIN → ℕ :=
  (List.finRange DOMAIN).foldl (fun v a => seqInner s a v) s.vals

/-- `App::update_sequential` (lines 294-363). -/
def updateSequential (s : App) : App :=
  if s.paused then s
  else
    let values := seqVals s
    let re_zoom := s.zoom
    let im_zoom := re_zoom * RAT
    let re_scalar := (s.re_max - s.re_min) / (s.re_max - s.re_min - (2.0 * re_zoom))
    let im_scalar := (s.im_max - s.im_min) / (s.im_max - s.im_min - (2.0 * im_zoom))
    let sf1 := if s.scalar > 0.000005 then (0.000001 : ℚ) else s.step_factor
    let sf2 := if s.scalar > 0.00005 then (0.00001 : ℚ) else sf1
    let sf3 := if s.scalar > 0.0005 then (0.0001 : ℚ) else sf2
    let sf4 := if s.scalar > 0.01 then (0.001 : ℚ) else sf3
    let sf5 := if s.scalar > 0.23 then (0.01 : ℚ) else sf4
    { vals := values
      re_min := s.re_min + re_zoom
      re_max := s.re_max - re_zoom
      im_min := s.im_min + im_zoom
      im_max := s.im_max - im_zoom
      re_scale := s.re_scale * re_scalar
      im_scale := s.im_scale * im_scalar
      zoom := s.zoom * 0.95
      scalar := s.scalar - sf5
      step_factor := sf5
      paused := s.paused }

/-- Per-cell colouring of `App::render` (lines 142-154), as a function of
the cell value and the current colour scalar. -/
def renderColour (count : ℕ) (scalar : ℚ) : ℚ × ℚ × ℚ × ℚ :=
  if count = ITERATIONS then (0.0, 0.0, 0.0, 1.0)
  else
    let colour_mod :=
      if scalar > 0.05 then (count : ℚ) / 100 * scalar else (count : ℚ) / 100 * 0.05
    (colour_mod * 2.4, colour_mod * 2.0, colour_mod * 3.0, 1.0)

/-- The initial `App` built in `main` (lines 426-439). -/
def initApp : App :=
  { vals := fun _ _ => 0
    re_min := RE1
    re_max := RE2
    im_min := IM1
    im_max := IM2
    re_scale := GRAPH_SCALE
    im_scale := GRAPH_SCALE
    zoom := 0.10
    scalar := 2.0
    step_factor := 0.01
    paused := false }

/-! Definitions taken from the specification text (for refinement claims). -/

/-- Escape-time loop exactly as the specification pseudocode writes it:
`while count < ITERATIONS and norm_sqr z < 4.0: z = z*z + c; count += 1`.
Again `fuel = ITERATIONS - count`. -/
def specEscapeGo (c : ℚ × ℚ) : ℕ → ℚ × ℚ → ℕ → ℕ
  | 0, _, count => count
  | fuel + 1, z, count =>
    if norm_sqr z < 4.0 then specEscapeGo c fuel (cAdd (cMul z z) c) (count + 1)
    else count

/-- Specification escape time of a point `c`: start from `z = 0`, `count = 0`. -/
def specEscape (c : ℚ × ℚ) : ℕ := specEscapeGo c ITERATIONS (0.0, 0.0) 0

/-- The step-factor threshold ladder as the claim states it: the largest
satisfied threshold wins, and if none is satisfied the previous
`step_factor` is retained. -/
def ladderSpec (scalar sf : ℚ) : ℚ :=
  if scalar > 0.23 then 0.01
  else if scalar > 0.01 then 0.001
  else if scalar > 0.0005 then 0.0001
  else if scalar > 0.00005 then 0.00001
  else if scalar > 0.000005 then 0.000001
  else sf

/-- A paused state, for exercising the pause behaviour. -/
def pausedApp : App := { initApp with paused := true }

/-- An unpaused state whose viewport is thinner than one pixel in plane
units (`re_max - re_min < 1 / re_scale`). -/
def thinApp : App :=
  { vals := fun _ _ => 0
    re_min := 0
    re_max := 1 / 10000000000
    im_min := 0
    im_max := 1
    re_scale := 100
    im_scale := 100
    zoom := 0.10
    scalar := 2.0
    step_factor := 0.01
    paused := false }

/-! Concrete values of the derived configuration constants. -/

theorem RE_MIN_eq : RE_MIN = -163 := by
  norm_num [RE_MIN, i16Trunc, RE1, MAGIC_RE, GRAPH_SCALE]

theorem RE_MAX_eq : RE_MAX = 236 := by
  norm_num [RE_MAX, i16Trunc, RE2, MAGIC_RE, GRAPH_SCALE]

theorem IM_MIN_eq : IM_MIN = -164 := by
  norm_num [IM_MIN, i16Trunc, IM1, MAGIC_IM, GRAPH_SCALE]

theorem IM_MAX_eq : IM_MAX = 35 := by
  norm_num [IM_MAX, i16Trunc, IM2, MAGIC_IM, GRAPH_SCALE]

theorem DOMAIN_eq : DOMAIN = 399 := by
  rw [DOMAIN, RE_MAX_eq, RE_MIN_eq]; rfl

theorem RANGE_eq : RANGE = 199 := by
  rw [RANGE, IM_MAX_eq, IM_MIN_eq]; rfl

theorem RAT_eq : RAT = 1 / 2 := by
  norm_num [RAT, DIM, DRE, IM1, IM2, RE1, RE2, MAGIC_IM, MAGIC_RE]

/-! Reading back a left fold of single-key writes. -/

/-- A `foldl` over a duplicate-free list of keys, where the step writes key
`i` to a value computed from the current entry at `i`, reads back as a
pointwise map of the initial function on the listed keys. -/
theorem foldl_update_read {ι α : Type} [DecidableEq ι] (w : ι → α → α) :
    ∀ (l : List ι), l.Nodup → ∀ (f0 : ι → α) (x : ι),
      (l.foldl (fun f i => Function.update f i (w i (f i))) f0) x
        = if x ∈ l then w x (f0 x) else f0 x := by
  intro l
  induction l with
  | nil => intro _ f0 x; simp
  | cons hd tl ih =>
    intro hnd f0 x
    rw [List.foldl_cons, ih (List.nodup_cons.mp hnd).2]
    by_cases hx : x ∈ tl
    · have hxhd : x ≠ hd := fun he => (List.nodup_cons.mp hnd).1 (he ▸ hx)
      rw [if_pos hx, if_pos (List.mem_cons_of_mem _ hx),
        Function.update_apply, if_neg hxhd]
    · rw [if_neg hx]
      by_cases hxh : x = hd
      · subst hxh
        rw [if_pos (List.mem_cons_self _ _), Function.update_apply, if_pos rfl]
      · rw [Function.update_apply, if_neg hxh,
          if_neg (by simp [List.mem_cons, hxh, hx])]

/-- The parallel per-row loop fills each cell of the zeroed row with
`0 + escapeCount`. -/
theorem parVals_apply (s : App) (im : Fin RANGE) (a : Fin DOMAIN) :
    parVals s im a = escapeCount (cOf s im a) := by
  have h := foldl_update_read (fun (i : Fin DOMAIN) (v : ℕ) => v + escapeCount (cOf s im i))
    (List.finRange DOMAIN) (List.nodup_finRange _) (fun _ => 0) a
  simp only [List.mem_finRange, if_pos, Nat.zero_add] at h
  exact h

/-- The sequential inner loop over rows, for a fixed column `a`, overwrites
exactly column `a` of every row. -/
theorem seqInner_apply (s : App) (a : Fin DOMAIN) (v : Fin RANGE → Fin DOMAIN → ℕ)
    (b : Fin RANGE) (a' : Fin DOMAIN) :
    seqInner s a v b a' = if a' = a then escapeCount (cOf s b a) else v b a' := by
  have h := foldl_update_read
    (fun (b : Fin RANGE) (row : Fin DOMAIN → ℕ) =>
      Function.update row a (escapeCount (cOf s b a)))
    (List.finRange RANGE) (List.nodup_finRange _) v b
  simp only [List.mem_finRange, if_pos] at h
  rw [seqInner, congrFun h a', Function.update_apply]

/-- The sequential double loop fills every cell. -/
theorem seqVals_apply (s : App) (b : Fin RANGE) (a : Fin DOMAIN) :
    seqVals s b a = escapeCount (cOf s b a) := by
  have key : ∀ (l : List (Fin DOMAIN)) (v : Fin RANGE → Fin DOMAIN → ℕ)
      (b : Fin RANGE) (a : Fin DOMAIN),
      (l.foldl (fun v a => seqInner s a v) v) b a
        = if a ∈ l then escapeCount (cOf s b a) else v b a := by
    intro l
    induction l with
    | nil => intro v b a; simp
    | cons hd tl ih =>
      intro v b a
      rw [List.foldl_cons, ih]
      by_cases ha : a ∈ tl
      · rw [if_pos ha, if_pos (List.mem_cons_of_mem _ ha)]
      · rw [if_neg ha, seqInner_apply]
        by_cases hah : a = hd
        · subst hah
          rw [if_pos rfl, if_pos (List.mem_cons_self _ _)]
        · rw [if_neg hah, if_neg (by simp [List.mem_cons, hah, ha])]
  rw [seqVals, key, if_pos (List.mem_finRange a)]

/-- Both grid computations agree cell for cell. -/
theorem parVals_eq_seqVals (s : App) : parVals s = seqVals s := by
  funext b a
  rw [parVals_apply, seqVals_apply]

/-! Escape-loop lemmas. -/

theorem norm_sqr_bound : norm_sqr bound = 4 := by norm_num [norm_sqr, bound]

/-- Once `done` is set, the loop exits and returns the current count. -/
theorem escapeGo_done (c : ℚ × ℚ) (fuel : ℕ) (z : ℚ × ℚ) (count : ℕ) :
    escapeGo c fuel z true count = count := by
  cases fuel <;> simp [escapeGo]

/-- The specification loop exits at an already-escaped point. -/
theorem specEscapeGo_done (c : ℚ × ℚ) (fuel : ℕ) (z : ℚ × ℚ) (count : ℕ)
    (h : ¬ norm_sqr z < 4.0) : specEscapeGo c fuel z count = count := by
  cases fuel <;> simp [specEscapeGo, h]

/-- The source loop (post-update escape test via a `done` flag) agrees with
the specification loop (pre-update `norm_sqr z < 4.0` test) from any
not-yet-escaped state. -/
theorem escapeGo_eq_specEscapeGo (c : ℚ × ℚ) :
    ∀ (fuel : ℕ) (z : ℚ × ℚ) (count : ℕ), norm_sqr z < 4.0 →
      escapeGo c fuel z false count = specEscapeGo c fuel z count := by
  intro fuel
  induction fuel with
  | zero => intro z count _; rfl
  | succ n ih =>
    intro z count h
    rw [escapeGo, specEscapeGo, if_pos h]
    simp only [Bool.false_eq_true, if_false, norm_sqr_bound, ge_iff_le]
    by_cases hesc : (4 : ℚ) ≤ norm_sqr (cAdd (cMul z z) c)
    · rw [if_pos hesc, escapeGo_done,
        specEscapeGo_done c n _ _ (by push_neg; exact le_trans (by norm_num) hesc)]
    · rw [if_neg hesc]
      exact ih _ _ (by push_neg at hesc; exact lt_of_lt_of_le hesc (by norm_num))

/-- The escape loop never returns less than the entry count. -/
theorem escapeGo_ge (c : ℚ × ℚ) :
    ∀ (fuel : ℕ) (z : ℚ × ℚ) (done : Bool) (count : ℕ),
      count ≤ escapeGo c fuel z done count := by
  intro fuel
  induction fuel with
  | zero => intro z done count; exact Nat.le_refl _
  | succ n ih =>
    intro z done count
    rw [escapeGo]
    by_cases hd : done = true
    · rw [if_pos hd]
    · rw [if_neg hd]
      by_cases hesc : norm_sqr (cAdd (cMul z z) c) ≥ norm_sqr bound
      · rw [if_pos hesc]
        exact Nat.le_trans (Nat.le_succ _) (ih _ _ _)
      · rw [if_neg hesc]
        exact Nat.le_trans (Nat.le_succ _) (ih _ _ _)

/-- The escape loop returns at most `count + fuel`. -/
theorem escapeGo_le (c : ℚ × ℚ) :
    ∀ (fuel : ℕ) (z : ℚ × ℚ) (done : Bool) (count : ℕ),
      escapeGo c fuel z done count ≤ count + fuel := by
  intro fuel
  induction fuel with
  | zero => intro z done count; exact Nat.le_refl _
  | succ n ih =>
    intro z done count
    rw [escapeGo]
    by_cases hd : done = true
    · rw [if_pos hd]; exact Nat.le_add_right _ _
    · rw [if_neg hd]
      by_cases hesc : norm_sqr (cAdd (cMul z z) c) ≥ norm_sqr bound
      · rw [if_pos hesc]
        exact Nat.le_trans (ih _ _ _) (by omega)
      · rw [if_neg hesc]
        exact Nat.le_trans (ih _ _ _) (by omega)

/-- With positive fuel and the flag still clear, the loop body runs at least
once, so the result exceeds the entry count. -/
theorem escapeGo_ge_one (c : ℚ × ℚ) (fuel : ℕ) (z : ℚ × ℚ) (count : ℕ) :
    count + 1 ≤ escapeGo c (fuel + 1) z false count := by
  rw [escapeGo]
  simp only [Bool.false_eq_true, if_false]
  by_cases hesc : norm_sqr (cAdd (cMul z z) c) ≥ norm_sqr bound
  · rw [if_pos hesc]; exact escapeGo_ge c _ _ _ _
  · rw [if_neg hesc]; exact escapeGo_ge c _ _ _ _

/-- Cell counts of the evaluator lie in `[1, ITERATIONS]`. -/
theorem escapeCount_bounds (c : ℚ × ℚ) :
    1 ≤ escapeCount c ∧ escapeCount c ≤ ITERATIONS := by
  constructor
  · exact escapeGo_ge_one c 1199 (0.0, 0.0) 0
  · exact escapeGo_le c ITERATIONS (0.0, 0.0) false 0

/-- The per-cell evaluator of the source agrees with the specification
escape time. -/
theorem escapeCount_eq_specEscape (c : ℚ × ℚ) : escapeCount c = specEscape c := by
  rw [escapeCount, specEscape]
  exact escapeGo_eq_specEscapeGo c ITERATIONS (0.0, 0.0) 0 (by norm_num [norm_sqr])

/-! Projection lemmas for the update functions. -/

theorem updateParallel_paused_eq (s : App) (h : s.paused = true) :
    updateParallel s = s := by
  simp [updateParallel, h]

theorem updateSequential_paused_eq (s : App) (h : s.paused = true) :
    updateSequential s = s := by
  simp [updateSequential, h]

theorem updateParallel_vals (s : App) (h : s.paused = false) :
    (updateParallel s).vals = parVals s := by
  simp [updateParallel, h]

theorem updateSequential_vals (s : App) (h : s.paused = false) :
    (updateSequential s).vals = seqVals s := by
  simp [updateSequential, h]

theorem updateParallel_step_factor (s : App) (h : s.paused = false) :
    (updateParallel s).step_factor = ladderSpec s.scalar s.step_factor := by
  simp [updateParallel, h, ladderSpec]

theorem updateParallel_scalar (s : App) (h : s.paused = false) :
    (updateParallel s).scalar = s.scalar - ladderSpec s.scalar s.step_factor := by
  simp [updateParallel, h, ladderSpec]

theorem updateParallel_zoom (s : App) (h : s.paused = false) :
    (updateParallel s).zoom = s.zoom * 0.95 := by
  simp [updateParallel, h]

theorem updateParallel_preserves_paused (s : App) :
    (updateParallel s).paused = s.paused := by
  by_cases h : s.paused <;> simp [updateParallel, h]

theorem ladderSpec_nonneg (scalar sf : ℚ) (h : 0 ≤ sf) :
    0 ≤ ladderSpec scalar sf := by
  rw [ladderSpec]
  split_ifs <;> first | exact h | norm_num

theorem step_factor_nonneg_step (s : App) (h : 0 ≤ s.step_factor) :
    0 ≤ (updateParallel s).step_factor := by
  by_cases hp : s.paused
  · rw [updateParallel_paused_eq s hp]; exact h
  · simp only [Bool.not_eq_true] at hp
    rw [updateParallel_step_factor s hp]
    exact ladderSpec_nonneg _ _ h

theorem scalar_step (s : App) (h : 0 ≤ s.step_factor) :
    (updateParallel s).scalar ≤ s.scalar := by
  by_cases hp : s.paused
  · rw [updateParallel_paused_eq s hp]
  · simp only [Bool.not_eq_true] at hp
    rw [updateParallel_scalar s hp]
    have := ladderSpec_nonneg s.scalar s.step_factor h
    linarith

theorem iterate_step_factor_nonneg (n : ℕ) :
    0 ≤ (updateParallel^[n] initApp).step_factor := by
  induction n with
  | zero => norm_num [initApp]
  | succ k ih =>
    rw [Function.iterate_succ_apply']
    exact step_factor_nonneg_step _ ih

theorem iterate_paused (n : ℕ) :
    (updateParallel^[n] initApp).paused = false := by
  induction n with
  | zero => rfl
  | succ k ih =>
    rw [Function.iterate_succ_apply', updateParallel_preserves_paused]
    exact ih

/-! Claim theorems. -/

/-- Claim C1: for every grid cell, the value stored by an unpaused update
equals the specification escape time of
`c = (col / re_scale + re_min, row / im_scale + im_min)`, computed from the
viewport fields as they were at entry to the update (pre-advance). -/
theorem claim_C1_cell_escape_time (s : App) (h : s.paused = false)
    (row : Fin RANGE) (col : Fin DOMAIN) :
    (updateParallel s).vals row col
      = specEscape ((col.val : ℚ) / s.re_scale + s.re_min,
                    (row.val : ℚ) / s.im_scale + s.im_min) := by
  rw [updateParallel_vals s h, parVals_apply, escapeCount_eq_specEscape, cOf]

/-- Claim C1 witness: the pre-advance escape-time reading at cell (0, 0) of
the initial state. -/
theorem claim_C1_witness :
    initApp.paused = false ∧
    (updateParallel initApp).vals ⟨0, by norm_num [RANGE_eq]⟩ ⟨0, by norm_num [DOMAIN_eq]⟩
      = specEscape (((0 : ℕ) : ℚ) / initApp.re_scale + initApp.re_min,
                    ((0 : ℕ) : ℚ) / initApp.im_scale + initApp.im_min) :=
  ⟨rfl, claim_C1_cell_escape_time initApp rfl ⟨0, by norm_num [RANGE_eq]⟩
    ⟨0, by norm_num [DOMAIN_eq]⟩⟩

/-- Claim C2: on any state, the parallel and the sequential update produce
states that agree on all fields; in particular the grids are identical cell
for cell (the `+=` into a freshly zeroed buffer behaves as assignment) and
the viewport, zoom and scalar updates coincide. -/
theorem claim_C2_parallel_eq_sequential (s : App) :
    updateParallel s = updateSequential s := by
  by_cases h : s.paused
  · rw [updateParallel_paused_eq s h, updateSequential_paused_eq s h]
  · simp only [Bool.not_eq_true] at h
    simp [updateParallel, updateSequential, h, parVals_eq_seqVals]

/-- Claim C3: every unpaused update advances the viewport by exactly the
specified recurrence, with the aspect ratio the fixed constant derived from
the initial extents. -/
theorem claim_C3_viewport_recurrence (s : App) (h : s.paused = false) :
    (updateParallel s).re_min = s.re_min + s.zoom ∧
    (updateParallel s).re_max = s.re_max - s.zoom ∧
    (updateParallel s).im_min = s.im_min + s.zoom * RAT ∧
    (updateParallel s).im_max = s.im_max - s.zoom * RAT ∧
    (updateParallel s).re_scale
      = s.re_scale * ((s.re_max - s.re_min) / (s.re_max - s.re_min - 2 * s.zoom)) ∧
    (updateParallel s).im_scale
      = s.im_scale * ((s.im_max - s.im_min) / (s.im_max - s.im_min - 2 * (s.zoom * RAT))) ∧
    (updateParallel s).zoom = s.zoom * 0.95 ∧
    RAT = (initApp.im_max - initApp.im_min) / (initApp.re_max - initApp.re_min) := by
  refine ⟨?_, ?_, ?_, ?_, ?_, ?_, ?_, ?_⟩ <;>
    norm_num [updateParallel, h, initApp, RAT, DIM, DRE]

/-- Claim C3 witness: the recurrence instantiated at the initial state. -/
theorem claim_C3_witness :
    initApp.paused = false ∧
    ((updateParallel initApp).re_min = initApp.re_min + initApp.zoom ∧
     (updateParallel initApp).re_max = initApp.re_max - initApp.zoom ∧
     (updateParallel initApp).im_min = initApp.im_min + initApp.zoom * RAT ∧
     (updateParallel initApp).im_max = initApp.im_max - initApp.zoom * RAT ∧
     (updateParallel initApp).re_scale
       = initApp.re_scale * ((initApp.re_max - initApp.re_min)
           / (initApp.re_max - initApp.re_min - 2 * initApp.zoom)) ∧
     (updateParallel initApp).im_scale
       = initApp.im_scale * ((initApp.im_max - initApp.im_min)
           / (initApp.im_max - initApp.im_min - 2 * (initApp.zoom * RAT))) ∧
     (updateParallel initApp).zoom = initApp.zoom * 0.95 ∧
     RAT = (initApp.im_max - initApp.im_min) / (initApp.re_max - initApp.re_min)) :=
  ⟨rfl, claim_C3_viewport_recurrence initApp rfl⟩

/-- Claim C4 counterexample: at an unpaused state whose viewport is already
thinner than one pixel in plane units, the update is not frozen — `re_min`
is still mutated. -/
theorem claim_C4_counterexample :
    thinApp.paused = false ∧
    thinApp.re_max - thinApp.re_min < 1 / thinApp.re_scale ∧
    (updateParallel thinApp).re_min ≠ thinApp.re_min := by
  refine ⟨rfl, by norm_num [thinApp], ?_⟩
  norm_num [updateParallel, thinApp]

/-- Claim C4 amended: the code implements no epsilon freeze. Even when
`re_max - re_min` has dropped below one pixel in plane units
(`1 / re_scale`), an unpaused update still applies the full viewport
recurrence, including the division by `re_max - re_min - 2*zoom`, in both
the parallel and the sequential variant. -/
theorem claim_C4_no_freeze (s : App) (h : s.paused = false)
    (_hthin : s.re_max - s.re_min < 1 / s.re_scale) :
    (updateParallel s).re_min = s.re_min + s.zoom ∧
    (updateParallel s).re_max = s.re_max - s.zoom ∧
    (updateParallel s).re_scale
      = s.re_scale * ((s.re_max - s.re_min) / (s.re_max - s.re_min - 2 * s.zoom)) ∧
    (updateParallel s).im_scale
      = s.im_scale * ((s.im_max - s.im_min) / (s.im_max - s.im_min - 2 * (s.zoom * RAT))) ∧
    (updateSequential s).re_min = s.re_min + s.zoom := by
  refine ⟨?_, ?_, ?_, ?_, ?_⟩ <;>
    norm_num [updateParallel, updateSequential, h]

/-- Claim C4 amended witness: the non-freeze at the sub-pixel-thin state. -/
theorem claim_C4_witness :
    thinApp.paused = false ∧
    thinApp.re_max - thinApp.re_min < 1 / thinApp.re_scale ∧
    ((updateParallel thinApp).re_min = thinApp.re_min + thinApp.zoom ∧
     (updateParallel thinApp).re_max = thinApp.re_max - thinApp.zoom ∧
     (updateParallel thinApp).re_scale
       = thinApp.re_scale * ((thinApp.re_max - thinApp.re_min)
           / (thinApp.re_max - thinApp.re_min - 2 * thinApp.zoom)) ∧
     (updateParallel thinApp).im_scale
       = thinApp.im_scale * ((thinApp.im_max - thinApp.im_min)
           / (thinApp.im_max - thinApp.im_min - 2 * (thinApp.zoom * RAT))) ∧
     (updateSequential thinApp).re_min = thinApp.re_min + thinApp.zoom) :=
  ⟨rfl, by norm_num [thinApp],
    claim_C4_no_freeze thinApp rfl (by norm_num [thinApp])⟩

/-- Claim C5: in every unpaused update, `step_factor` is selected from the
pre-decrement `scalar` with the largest satisfied threshold winning (and
retained when no threshold is exceeded), and `scalar` is then decremented
by that value. -/
theorem claim_C5_step_factor_ladder (s : App) (h : s.paused = false) :
    (updateParallel s).step_factor = ladderSpec s.scalar s.step_factor ∧
    (updateParallel s).scalar = s.scalar - ladderSpec s.scalar s.step_factor :=
  ⟨updateParallel_step_factor s h, updateParallel_scalar s h⟩

/-- Claim C5 witness: the ladder instantiated at the initial state. -/
theorem claim_C5_witness :
    initApp.paused = false ∧
    ((updateParallel initApp).step_factor = ladderSpec initApp.scalar initApp.step_factor ∧
     (updateParallel initApp).scalar
       = initApp.scalar - ladderSpec initApp.scalar initApp.step_factor) :=
  ⟨rfl, claim_C5_step_factor_ladder initApp rfl⟩

/-- Claim C6: while paused, an update call leaves every field of the state,
including the grid, unchanged — the whole update body is skipped. -/
theorem claim_C6_paused_noop (s : App) (h : s.paused = true) :
    updateParallel s = s ∧ updateSequential s = s :=
  ⟨updateParallel_paused_eq s h, updateSequential_paused_eq s h⟩

/-- Claim C6 witness: the no-op at a concrete paused state. -/
theorem claim_C6_witness :
    pausedApp.paused = true ∧
    (updateParallel pausedApp = pausedApp ∧ updateSequential pausedApp = pausedApp) :=
  ⟨rfl, claim_C6_paused_noop pausedApp rfl⟩

/-- Claim C7: starting from the initial state (`scalar = 2.0`,
`step_factor = 0.01`), `step_factor` is never negative in any reachable
state, and the post-update `scalar` never exceeds the pre-update `scalar`. -/
theorem claim_C7_scalar_monotone (n : ℕ) :
    0 ≤ (updateParallel^[n] initApp).step_factor ∧
    (updateParallel^[n + 1] initApp).scalar ≤ (updateParallel^[n] initApp).scalar := by
  refine ⟨iterate_step_factor_nonneg n, ?_⟩
  rw [Function.iterate_succ_apply']
  exact scalar_step _ (iterate_step_factor_nonneg n)

/-- Claim C8: after `t` unpaused updates from the initial state, `zoom`
equals `0.10 * 0.95 ^ t` exactly (the rational model carries no rounding). -/
theorem claim_C8_zoom_geometric (t : ℕ) :
    (updateParallel^[t] initApp).zoom = 0.10 * 0.95 ^ t := by
  induction t with
  | zero => norm_num [initApp]
  | succ k ih =>
    rw [Function.iterate_succ_apply', updateParallel_zoom _ (iterate_paused k), ih]
    ring

/-- Claim C9: the colour mapping returns pure black at a saturated count for
every scalar, returns `(0,0,0,1)` at count 0 for every scalar, follows the
stated modulation formula away from saturation, and does not clamp channel
values to `[0, 1]`. -/
theorem claim_C9_colour_mapping :
    (∀ sc : ℚ, renderColour ITERATIONS sc = (0.0, 0.0, 0.0, 1.0)) ∧
    (∀ sc : ℚ, renderColour 0 sc = (0.0, 0.0, 0.0, 1.0)) ∧
    (∀ (count : ℕ) (sc : ℚ), count ≠ ITERATIONS →
      renderColour count sc
        = ((count : ℚ) / 100 * (if sc > 0.05 then sc else 0.05) * 2.4,
           (count : ℚ) / 100 * (if sc > 0.05 then sc else 0.05) * 2.0,
           (count : ℚ) / 100 * (if sc > 0.05 then sc else 0.05) * 3.0, 1.0)) ∧
    1 < (renderColour 100 2).1 := by
  refine ⟨fun sc => by rw [renderColour, if_pos rfl], fun sc => ?_, fun count sc h => ?_, ?_⟩
  · rw [renderColour, if_neg (by norm_num [ITERATIONS])]
    split_ifs <;> norm_num
  · rw [renderColour, if_neg h]
    split_ifs <;> rfl
  · rw [renderColour, if_neg (by norm_num [ITERATIONS])]
    norm_num

/-- Claim C9 witness: the modulation branch instantiated at count 100 and
scalar 2 (a channel value of 4.8 results, above 1). -/
theorem claim_C9_witness :
    (100 : ℕ) ≠ ITERATIONS ∧
    renderColour 100 2
      = (((100 : ℕ) : ℚ) / 100 * (if (2 : ℚ) > 0.05 then (2 : ℚ) else 0.05) * 2.4,
         ((100 : ℕ) : ℚ) / 100 * (if (2 : ℚ) > 0.05 then (2 : ℚ) else 0.05) * 2.0,
         ((100 : ℕ) : ℚ) / 100 * (if (2 : ℚ) > 0.05 then (2 : ℚ) else 0.05) * 3.0, 1.0) :=
  ⟨by norm_num [ITERATIONS],
    claim_C9_colour_mapping.2.2.1 100 2 (by norm_num [ITERATIONS])⟩

/-- Claim C10: every cell of a grid produced by an unpaused update (of
either variant) satisfies `1 ≤ count ≤ ITERATIONS`: the escape loop always
runs at least once, so the `count = 0` branch of the colour mapping is
unreachable for evaluator-produced grids. -/
theorem claim_C10_counts_in_range (s : App) (h : s.paused = false)
    (row : Fin RANGE) (col : Fin DOMAIN) :
    (1 ≤ (updateParallel s).vals row col ∧ (updateParallel s).vals row col ≤ ITERATIONS) ∧
    (1 ≤ (updateSequential s).vals row col ∧
      (updateSequential s).vals row col ≤ ITERATIONS) := by
  rw [updateParallel_vals s h, updateSequential_vals s h, parVals_apply, seqVals_apply]
  exact ⟨escapeCount_bounds _, escapeCount_bounds _⟩

/-- Claim C10 witness: the bounds at cell (0, 0) of the first frame. -/
theorem claim_C10_witness :
    initApp.paused = false ∧
    ((1 ≤ (updateParallel initApp).vals ⟨0, by norm_num [RANGE_eq]⟩ ⟨0, by norm_num [DOMAIN_eq]⟩ ∧
      (updateParallel initApp).vals ⟨0, by norm_num [RANGE_eq]⟩ ⟨0, by norm_num [DOMAIN_eq]⟩
        ≤ ITERATIONS) ∧
     (1 ≤ (updateSequential initApp).vals ⟨0, by norm_num [RANGE_eq]⟩ ⟨0, by norm_num [DOMAIN_eq]⟩ ∧
      (updateSequential initApp).vals ⟨0, by norm_num [RANGE_eq]⟩ ⟨0, by norm_num [DOMAIN_eq]⟩
        ≤ ITERATIONS)) :=
  ⟨rfl, claim_C10_counts_in_range initApp rfl ⟨0, by norm_num [RANGE_eq]⟩
    ⟨0, by norm_num [DOMAIN_eq]⟩⟩
